import Mathlib

/-!
# Verification of the `vulkan-triangle` presentation loop

Shallow embedding of the Rust sources (`src/main.rs`, `src/dbgpipe.rs`,
`src/bmptxtpipe.rs`) of the `vulkan-triangle` demonstration program.

The program's only nontrivial logic is the winit event-loop closure in
`main`, which drives swapchain recreation, image acquisition, command-buffer
recording, submission and presentation.  We embed that closure as a pure
step function `handle_event : LoopState → Ev → StepResult`.  Interactions
with the platform and the GPU (window dimensions, image acquisition,
flush outcomes) are the closure's inputs, so they appear as an environment
record `RedrawEnv` consumed by each redraw; host-visible effects
(acquire, submit, blocking fence wait, logging) are emitted as a list of
`HostAction`s.  A Rust `panic!` / failing `unwrap()` becomes `StepResult.panic`.

`f32` literals in the sources are exact in the embedding: we model them as
rationals (every literal in the program is a decimal fraction).
-/

/-- `f32` scalars of the program, modelled exactly as rationals
(all literals occurring in the sources are decimal fractions). -/
abbrev F32 := ℚ

/-- `dbgpipe::Vertex`: a single 4-component float position
(`src/dbgpipe.rs`, `pub struct Vertex { pub position: [f32; 4] }`). -/
structure Vertex where
  position : F32 × F32 × F32 × F32
deriving DecidableEq, Repr

/-- The two graphics pipelines built by the repository:
`dbgpipe::build` (red triangle, fragment shader emits `vec4(1,0,0,1)`) and
`bmptxtpipe::build` (textured quad, fragment shader samples a bitmap). -/
inductive PipelineId where
  | debug
  | bmptxt
deriving DecidableEq, Repr

/-- Constant fragment output of the debug pipeline's fragment shader
(`src/dbgpipe.rs`, `f_color = vec4(1.0, 0.0, 0.0, 1.0)`): opaque red. -/
def dbgpipe_fragment_color : F32 × F32 × F32 × F32 := (1, 0, 0, 1)

/-- A swapchain image.  A real `SwapchainImage` is opaque; the loop only
ever distinguishes images by the swapchain generation that produced them
and by their pixel dimensions, which is what we record. -/
structure Image where
  gen : Nat
  width : Nat
  height : Nat
deriving DecidableEq, Repr

/-- The swapchain handle retained by the loop.  Recreation replaces it
wholesale (`swapchain = new_swapchain`), which we model as bumping a
generation counter. -/
structure SwapchainHandle where
  gen : Nat
deriving DecidableEq, Repr

/-- `vulkano::pipeline::viewport::Viewport` as built by
`window_size_dependent_setup`. -/
structure Viewport where
  originX : F32
  originY : F32
  width : F32
  height : F32
  depthMin : F32
  depthMax : F32
deriving DecidableEq, Repr

/-- A framebuffer: `Framebuffer::start(render_pass).add(image).build()`. -/
structure Framebuffer where
  renderPass : Nat
  image : Image
deriving DecidableEq, Repr

/-- `vulkano::command_buffer::DynamicState` as used by `main`: only the
`viewports` field is ever written (by `window_size_dependent_setup`). -/
structure DynamicState where
  line_width : Option F32
  viewports : Option (List Viewport)
  scissors : Option (List (Nat × Nat × Nat × Nat))
deriving DecidableEq, Repr

/-- The opaque render-pass handle of the debug pipeline
(`debug_pipeline.render_pass`), the only render pass `main` ever uses. -/
def debug_render_pass : Nat := 0

/-- The persistent descriptor set built once in `main` from the
view-projection uniform buffer (`PersistentDescriptorSet::start(...)`). -/
def main_descriptor_set : Nat := 0

/-- One recorded command of an `AutoCommandBufferBuilder` sequence. -/
inductive Command where
  | beginRenderPass (fb : Framebuffer)
      (clearValues : List (F32 × F32 × F32 × F32))
  | draw (pipeline : PipelineId) (dyn : DynamicState)
      (vertexBuffers : List (List Vertex)) (sets : List Nat)
  | endRenderPass
deriving DecidableEq, Repr

/-- A built command buffer is its recorded command sequence. -/
abbrev CommandBuffer := List Command

/-- The acquisition signal returned by `swapchain::acquire_next_image`:
it refers to one image index of one swapchain generation. -/
structure AcquireFuture where
  gen : Nat
  imageNum : Nat
deriving DecidableEq, Repr

/-- The `Box<dyn GpuFuture>` retained in `previous_frame_end`.  Only two
shapes ever occur in the program: `sync::now(device)` and the chain
`prev.join(acquire).then_execute(queue, cmd)
    .then_swapchain_present(queue, swapchain, image_num)
    .then_signal_fence_and_flush()`. -/
inductive GpuFuture where
  | now
  | fenceSignal (prev : GpuFuture) (acquire : AcquireFuture)
      (cmd : CommandBuffer) (presentGen : Nat) (presentImageNum : Nat)
deriving DecidableEq, Repr

/-- The command buffer executed by a future (empty for `sync::now`). -/
def GpuFuture.cmds : GpuFuture → CommandBuffer
  | .now => []
  | .fenceSignal _ _ c _ _ => c

/-- `winit::event_loop::ControlFlow` values used by `main`. -/
inductive ControlFlow where
  | poll
  | exit
deriving DecidableEq, Repr

/-- The mutable state captured by the event-loop closure in `main`. -/
structure LoopState where
  swapchain : SwapchainHandle
  images : List Image
  framebuffers : List Framebuffer
  dynamic_state : DynamicState
  recreate_swapchain : Bool
  previous_frame_end : Option GpuFuture
  vertex_buffer : List Vertex
  control_flow : ControlFlow
deriving DecidableEq, Repr

/-- Host-visible effects performed during one invocation of the closure. -/
inductive HostAction where
  | requestedRedraw
  | recreated (gen : Nat) (dims : Nat × Nat)
  | acquired (gen : Nat) (imageNum : Nat)
  | submitted (f : GpuFuture)
  | waitedFence (f : GpuFuture)
  | loggedError (msg : String)
deriving DecidableEq, Repr

/-- Outcome of `swapchain.recreate_with_dimension(dimensions)`: success
returns the new swapchain's images (we record each image's dimensions;
the generation is assigned by the model), or
`SwapchainCreationError::UnsupportedDimensions`, or any other error. -/
inductive RecreateResult where
  | ok (imagesDims : List (Nat × Nat))
  | unsupportedDimensions
  | fatal (msg : String)
deriving DecidableEq, Repr

/-- Outcome of `swapchain::acquire_next_image(swapchain, None)`. -/
inductive AcquireResult where
  | ok (imageNum : Nat)
  | outOfDate
  | fatal (msg : String)
deriving DecidableEq, Repr

/-- Outcome of `then_signal_fence_and_flush()` (`FlushError`). -/
inductive FlushResult where
  | ok
  | outOfDate
  | err (msg : String)
deriving DecidableEq, Repr

/-- The platform/GPU responses consumed by one redraw iteration.
`windowDims` is `window.inner_size()` scaled by the hidpi factor,
queried at redraw time. -/
structure RedrawEnv where
  windowDims : Nat × Nat
  recreateResult : RecreateResult
  acquireResult : AcquireResult
  flushResult : FlushResult
deriving DecidableEq, Repr

/-- Events dispatched to the closure (`winit::event::Event`). -/
inductive Ev where
  | eventsCleared
  | redrawRequested (env : RedrawEnv)
  | closeRequested
  | resized (w : Nat) (h : Nat)
  | other
deriving DecidableEq, Repr

/-- Result of one invocation of the event-loop closure: either the closure
returns (with the new captured state and the actions it performed), or the
process panics (a failing `unwrap()` / explicit `panic!`). -/
inductive StepResult where
  | cont (s : LoopState) (actions : List HostAction)
  | panic (msg : String)
deriving DecidableEq, Repr

/-- New state of a non-panicking step. -/
def StepResult.state? : StepResult → Option LoopState
  | .cont s _ => some s
  | .panic _ => none

/-- Actions of a non-panicking step. -/
def StepResult.actions? : StepResult → Option (List HostAction)
  | .cont _ a => some a
  | .panic _ => none

/-- Prefix extra actions onto a step's action list. -/
def StepResult.prepend (pre : List HostAction) : StepResult → StepResult
  | .cont s a => .cont s (pre ++ a)
  | .panic m => .panic m

/-- `window_size_dependent_setup` (`src/main.rs:270`): from the image list
and render pass, compute the viewport (written into
`dynamic_state.viewports`) and one framebuffer per image.  It begins with
`images[0].dimensions()`, so the empty image list panics (out-of-bounds
index), modelled by `none`. -/
def window_size_dependent_setup (images : List Image) (render_pass : Nat) :
    Option (Viewport × List Framebuffer) :=
  match images with
  | [] => none
  | img0 :: _ =>
    let viewport : Viewport :=
      { originX := 0, originY := 0,
        width := (img0.width : F32), height := (img0.height : F32),
        depthMin := 0, depthMax := 1 }
    some (viewport,
      images.map (fun image => { renderPass := render_pass, image := image }))

/-- The three vertices written into the `CpuAccessibleBuffer` at startup
(`src/main.rs:100-119`). -/
def initial_vertex_data : List Vertex :=
  [ { position := (-0.5, -0.25, 0.0, 1.0) },
    { position := (0.0, 0.5, 0.0, 1.0) },
    { position := (0.25, -0.1, 0.0, 1.0) } ]

/-- The clear values of every render pass
(`let clear_values = vec![[0.0, 0.0, 1.0, 1.0].into()]`). -/
def main_clear_values : List (F32 × F32 × F32 × F32) := [(0.0, 0.0, 1.0, 1.0)]

/-- The single-use command buffer recorded each frame
(`src/main.rs:208-226`): begin the render pass on
`framebuffers[image_num]`, one `draw` with the debug pipeline, end.
Indexing `framebuffers[image_num]` panics when out of bounds (`none`). -/
def record_command_buffer (framebuffers : List Framebuffer)
    (image_num : Nat) (dyn : DynamicState) (vertex_buffer : List Vertex) :
    Option CommandBuffer :=
  match framebuffers.get? image_num with
  | none => none
  | some fb =>
    some [ .beginRenderPass fb main_clear_values,
           .draw .debug dyn [vertex_buffer] [main_descriptor_set],
           .endRenderPass ]

/-- The acquire / record / submit / flush tail of a redraw iteration
(`src/main.rs:196-252`), run after the recreation phase on state `s`. -/
def acquire_and_draw (s : LoopState) (env : RedrawEnv) : StepResult :=
  match env.acquireResult with
  | .outOfDate => .cont { s with recreate_swapchain := true } []
  | .fatal msg => .panic msg
  | .ok image_num =>
    let acquire_future : AcquireFuture :=
      { gen := s.swapchain.gen, imageNum := image_num }
    match record_command_buffer s.framebuffers image_num
        s.dynamic_state s.vertex_buffer with
    | none => .panic "index out of bounds"
    | some command_buffer =>
      match s.previous_frame_end with
      | none => .panic "called Option..unwrap() on a None value"
      | some prev =>
        let future : GpuFuture :=
          .fenceSignal prev acquire_future command_buffer
            s.swapchain.gen image_num
        let acts : List HostAction :=
          [ .acquired s.swapchain.gen image_num, .submitted future ]
        match env.flushResult with
        | .ok =>
          .cont { s with previous_frame_end := some future }
            (acts ++ [.waitedFence future])
        | .outOfDate =>
          .cont { s with recreate_swapchain := true,
                             previous_frame_end := some .now } acts
        | .err e =>
          .cont { s with previous_frame_end := some .now }
            (acts ++ [.loggedError e])

/-- The state update of a successful `recreate_with_dimension`
(`src/main.rs:186-193`): install the new swapchain (next generation) with
its images, rebuild the framebuffers and the viewport through
`window_size_dependent_setup`, and clear `recreate_swapchain`.  `none`
models the panic inside `window_size_dependent_setup` when the new
swapchain has no images. -/
def recreate_apply (s : LoopState) (imagesDims : List (Nat × Nat)) :
    Option LoopState :=
  let newGen := s.swapchain.gen + 1
  let new_images : List Image := imagesDims.map
    (fun d => { gen := newGen, width := d.1, height := d.2 })
  match window_size_dependent_setup new_images debug_render_pass with
  | none => none
  | some (viewport, fbs) =>
    some { s with swapchain := { gen := newGen },
                  images := new_images,
                  framebuffers := fbs,
                  dynamic_state :=
                    { s.dynamic_state with viewports := some [viewport] },
                  recreate_swapchain := false }

/-- One redraw iteration (`src/main.rs:172-252`): the recreation phase
(when `recreate_swapchain` is set, using the window dimensions queried at
redraw time) followed by `acquire_and_draw`. -/
def redraw_step (s : LoopState) (env : RedrawEnv) : StepResult :=
  if s.recreate_swapchain then
    match env.recreateResult with
    | .unsupportedDimensions => .cont s []
    | .fatal msg => .panic msg
    | .ok imagesDims =>
      match recreate_apply s imagesDims with
      | none => .panic "index out of bounds"
      | some s1 =>
        (acquire_and_draw s1 env).prepend
          [.recreated (s.swapchain.gen + 1) env.windowDims]
  else
    acquire_and_draw s env

/-- One invocation of the event-loop closure (`src/main.rs:159-267`):
set `control_flow` to `Poll`, call `cleanup_finished` through
`previous_frame_end.as_mut().unwrap()` (panics when `None`), then
dispatch on the event. -/
def handle_event (s0 : LoopState) (ev : Ev) : StepResult :=
  let s : LoopState := { s0 with control_flow := .poll }
  match s0.previous_frame_end with
  | none => .panic "called Option..unwrap() on a None value"
  | some _ =>
    match ev with
    | .eventsCleared => .cont s [.requestedRedraw]
    | .redrawRequested env => redraw_step s env
    | .closeRequested => .cont { s with control_flow := .exit } []
    | .resized _ _ => .cont { s with recreate_swapchain := true } []
    | .other => .cont s []

/-- The startup path of `main` that feeds the loop: the initial swapchain
(generation 0) with its images, the vertex buffer, the initial
`DynamicState` (all fields `None`) passed through
`window_size_dependent_setup`, `recreate_swapchain = false`, and
`previous_frame_end = Some(sync::now(device))`.  `none` models a startup
panic (an initial swapchain with no images). -/
def init (initImagesDims : List (Nat × Nat)) : Option LoopState :=
  let images : List Image := initImagesDims.map
    (fun d => { gen := 0, width := d.1, height := d.2 })
  match window_size_dependent_setup images debug_render_pass with
  | none => none
  | some (viewport, fbs) =>
    some { swapchain := { gen := 0 },
           images := images,
           framebuffers := fbs,
           dynamic_state :=
             { line_width := none, viewports := some [viewport],
               scissors := none },
           recreate_swapchain := false,
           previous_frame_end := some .now,
           vertex_buffer := initial_vertex_data,
           control_flow := .poll }

/-- States the loop can actually be in: the initial state, and anything
produced by a non-panicking closure invocation. -/
inductive Reachable : LoopState → Prop where
  | init (dims : List (Nat × Nat)) (s : LoopState) :
      init dims = some s → Reachable s
  | step (s s' : LoopState) (ev : Ev) (acts : List HostAction) :
      Reachable s → handle_event s ev = .cont s' acts → Reachable s'

/-! ## Structural lemmas about the step function -/

/-- The framebuffer set the loop builds for an image list (always with the
debug pipeline's render pass). -/
def framebuffersFor (imgs : List Image) : List Framebuffer :=
  imgs.map (fun image => { renderPass := debug_render_pass, image := image })

/-- Inversion for `window_size_dependent_setup`: success forces a nonempty
image list, one framebuffer per image (in order), and the viewport taken
from the first image's dimensions. -/
theorem setup_eq_some {images : List Image} {rp : Nat} {vp : Viewport}
    {fbs : List Framebuffer}
    (h : window_size_dependent_setup images rp = some (vp, fbs)) :
    fbs = images.map (fun image => { renderPass := rp, image := image }) ∧
    ∃ img0 rest, images = img0 :: rest ∧
      vp = { originX := 0, originY := 0, width := (img0.width : F32),
             height := (img0.height : F32), depthMin := 0, depthMax := 1 } := by
  cases images with
  | nil => simp [window_size_dependent_setup] at h
  | cons img0 rest =>
    simp only [window_size_dependent_setup, Option.some.injEq, Prod.mk.injEq] at h
    exact ⟨h.2.symm, img0, rest, rfl, h.1.symm⟩

/-- `acquire_and_draw` never touches the swapchain, images, framebuffers,
dynamic state, vertex buffer or control flow, and always leaves a live
`previous_frame_end`. -/
theorem acquire_and_draw_frame {s : LoopState} {env : RedrawEnv}
    {s' : LoopState} {acts : List HostAction}
    (h : acquire_and_draw s env = .cont s' acts) :
    s'.swapchain = s.swapchain ∧ s'.images = s.images ∧
    s'.framebuffers = s.framebuffers ∧ s'.dynamic_state = s.dynamic_state ∧
    s'.vertex_buffer = s.vertex_buffer ∧ s'.control_flow = s.control_flow ∧
    (s'.previous_frame_end = s.previous_frame_end ∨
      s'.previous_frame_end.isSome) := by
  obtain ⟨dims, rr, ar, fr⟩ := env
  cases ar with
  | outOfDate =>
    simp only [acquire_and_draw, StepResult.cont.injEq] at h
    obtain ⟨h1, _⟩ := h
    subst h1
    simp
  | fatal msg => simp [acquire_and_draw] at h
  | ok n =>
    cases hrcb : record_command_buffer s.framebuffers n s.dynamic_state
        s.vertex_buffer with
    | none => simp [acquire_and_draw, hrcb] at h
    | some cb =>
      cases hpf : s.previous_frame_end with
      | none => simp [acquire_and_draw, hrcb, hpf] at h
      | some prev =>
        cases fr with
        | ok =>
          simp only [acquire_and_draw, hrcb, hpf,
            StepResult.cont.injEq] at h
          obtain ⟨h1, _⟩ := h
          subst h1
          simp
        | outOfDate =>
          simp only [acquire_and_draw, hrcb, hpf,
            StepResult.cont.injEq] at h
          obtain ⟨h1, _⟩ := h
          subst h1
          simp
        | err e =>
          simp only [acquire_and_draw, hrcb, hpf,
            StepResult.cont.injEq] at h
          obtain ⟨h1, _⟩ := h
          subst h1
          simp

/-- Inversion for `StepResult.prepend`. -/
theorem prepend_eq_cont {pre : List HostAction} {r : StepResult}
    {s' : LoopState} {acts : List HostAction}
    (h : r.prepend pre = .cont s' acts) :
    ∃ a, r = .cont s' a ∧ acts = pre ++ a := by
  cases r
  next t a =>
    simp only [StepResult.prepend, StepResult.cont.injEq] at h
    exact ⟨a, by simp [h.1], h.2.symm⟩
  next m => simp [StepResult.prepend] at h

/-- Characterisation of a successful `recreate_apply`. -/
theorem recreate_apply_eq_some {s : LoopState} {imagesDims : List (Nat × Nat)}
    {s1 : LoopState} (h : recreate_apply s imagesDims = some s1) :
    s1.swapchain = { gen := s.swapchain.gen + 1 } ∧
    s1.images = imagesDims.map
      (fun d => { gen := s.swapchain.gen + 1, width := d.1, height := d.2 }) ∧
    s1.framebuffers = framebuffersFor s1.images ∧
    s1.recreate_swapchain = false ∧
    s1.previous_frame_end = s.previous_frame_end ∧
    s1.vertex_buffer = s.vertex_buffer ∧
    s1.control_flow = s.control_flow ∧
    imagesDims ≠ [] := by
  simp only [recreate_apply] at h
  cases hst : window_size_dependent_setup
      (imagesDims.map
        (fun d => { gen := s.swapchain.gen + 1, width := d.1, height := d.2 }))
      debug_render_pass with
  | none => rw [hst] at h; simp at h
  | some vfbs =>
    obtain ⟨vp, fbs⟩ := vfbs
    rw [hst] at h
    simp only [Option.some.injEq] at h
    subst h
    obtain ⟨hfbs, img0, rest, hcons, _⟩ := setup_eq_some hst
    refine ⟨rfl, rfl, ?_, rfl, rfl, rfl, rfl, ?_⟩
    · simpa [framebuffersFor] using hfbs
    · intro hnil
      rw [hnil] at hcons
      simp at hcons

/-- The loop invariant: the framebuffer set is exactly one framebuffer per
current image (built on the debug render pass), every current image belongs
to the current swapchain generation, the retained frame handle is live, and
the vertex buffer still holds the startup data. -/
structure LoopInv (s : LoopState) : Prop where
  fb_eq : s.framebuffers = framebuffersFor s.images
  gen_eq : ∀ i ∈ s.images, i.gen = s.swapchain.gen
  pfe : s.previous_frame_end.isSome
  vb_eq : s.vertex_buffer = initial_vertex_data

/-- The startup state satisfies the invariant. -/
theorem init_inv {dims : List (Nat × Nat)} {s : LoopState}
    (h : init dims = some s) : LoopInv s := by
  unfold init at h
  cases dims with
  | nil => simp [window_size_dependent_setup] at h
  | cons d ds =>
    simp only [window_size_dependent_setup, List.map_cons,
      Option.some.injEq] at h
    subst h
    refine ⟨?_, ?_, ?_, ?_⟩
    · simp [framebuffersFor]
    · intro i hi
      simp only [List.mem_cons, List.mem_map] at hi
      rcases hi with hi | ⟨d', _, hi⟩
      · subst hi; rfl
      · subst hi; rfl
    · simp
    · simp

/-- `acquire_and_draw` preserves the loop invariant. -/
theorem acquire_and_draw_inv {s : LoopState} {env : RedrawEnv}
    {s' : LoopState} {acts : List HostAction} (hT : LoopInv s)
    (h : acquire_and_draw s env = .cont s' acts) : LoopInv s' := by
  obtain ⟨h1, h2, h3, _, h5, _, h7⟩ := acquire_and_draw_frame h
  refine ⟨?_, ?_, ?_, ?_⟩
  · rw [h3, h2]; exact hT.fb_eq
  · intro i hi; rw [h2] at hi; rw [h1]; exact hT.gen_eq i hi
  · rcases h7 with h7 | h7
    · rw [h7]; exact hT.pfe
    · exact h7
  · rw [h5]; exact hT.vb_eq

/-- `redraw_step` preserves the loop invariant. -/
theorem redraw_step_inv {s : LoopState} {env : RedrawEnv} {s' : LoopState}
    {acts : List HostAction} (hInv : LoopInv s)
    (h : redraw_step s env = .cont s' acts) : LoopInv s' := by
  obtain ⟨dims, rr, ar, fr⟩ := env
  cases hrc : s.recreate_swapchain with
  | false =>
    rw [redraw_step, hrc] at h
    simp only [Bool.false_eq_true, if_false] at h
    exact acquire_and_draw_inv hInv h
  | true =>
    rw [redraw_step, hrc] at h
    simp only [if_true] at h
    cases rr with
    | unsupportedDimensions =>
      simp only [StepResult.cont.injEq] at h
      obtain ⟨h1, _⟩ := h
      subst h1
      exact hInv
    | fatal msg => simp at h
    | ok imagesDims =>
      simp only at h
      cases hra : recreate_apply s imagesDims with
      | none => rw [hra] at h; simp at h
      | some s1 =>
        rw [hra] at h
        obtain ⟨a, ha, _⟩ := prepend_eq_cont h
        obtain ⟨g1, gimg, gfb, _, gpfe, gvb, _, _⟩ := recreate_apply_eq_some hra
        refine acquire_and_draw_inv ⟨gfb, ?_, ?_, ?_⟩ ha
        · intro i hi
          rw [gimg] at hi
          simp only [List.mem_map] at hi
          obtain ⟨d', _, hd⟩ := hi
          rw [g1, ← hd]
        · rw [gpfe]; exact hInv.pfe
        · rw [gvb]; exact hInv.vb_eq

/-- `handle_event` preserves the loop invariant. -/
theorem handle_event_inv {s : LoopState} {ev : Ev} {s' : LoopState}
    {acts : List HostAction} (hInv : LoopInv s)
    (h : handle_event s ev = .cont s' acts) : LoopInv s' := by
  obtain ⟨prev, hprev⟩ := Option.isSome_iff_exists.mp hInv.pfe
  cases ev with
  | eventsCleared =>
    simp only [handle_event, hprev, StepResult.cont.injEq] at h
    obtain ⟨h1, _⟩ := h
    subst h1
    exact ⟨hInv.fb_eq, hInv.gen_eq, by simp [hprev], hInv.vb_eq⟩
  | redrawRequested env =>
    simp only [handle_event, hprev] at h
    refine redraw_step_inv ?_ h
    exact ⟨hInv.fb_eq, hInv.gen_eq, by simp, hInv.vb_eq⟩
  | closeRequested =>
    simp only [handle_event, hprev, StepResult.cont.injEq] at h
    obtain ⟨h1, _⟩ := h
    subst h1
    exact ⟨hInv.fb_eq, hInv.gen_eq, by simp [hprev], hInv.vb_eq⟩
  | resized w hgt =>
    simp only [handle_event, hprev, StepResult.cont.injEq] at h
    obtain ⟨h1, _⟩ := h
    subst h1
    exact ⟨hInv.fb_eq, hInv.gen_eq, by simp [hprev], hInv.vb_eq⟩
  | other =>
    simp only [handle_event, hprev, StepResult.cont.injEq] at h
    obtain ⟨h1, _⟩ := h
    subst h1
    exact ⟨hInv.fb_eq, hInv.gen_eq, by simp [hprev], hInv.vb_eq⟩

/-- Every reachable state satisfies the loop invariant. -/
theorem reachable_inv {s : LoopState} (h : Reachable s) : LoopInv s := by
  induction h with
  | init dims s hs => exact init_inv hs
  | step s s' ev acts _ hstep ih => exact handle_event_inv ih hstep

/-! ## Characterisation of the actions of a redraw iteration -/

/-- Number of swapchain recreations performed in an action list. -/
def countRecreated (acts : List HostAction) : Nat :=
  (acts.filter fun a => match a with
    | .recreated _ _ => true
    | _ => false).length

/-- Number of submissions performed in an action list. -/
def countSubmitted (acts : List HostAction) : Nat :=
  (acts.filter fun a => match a with
    | .submitted _ => true
    | _ => false).length

/-- `acquire_and_draw` on the out-of-date acquisition path: set the stale
flag, abort the frame, perform nothing. -/
theorem acquire_and_draw_out_of_date {s : LoopState} {env : RedrawEnv}
    (hacq : env.acquireResult = .outOfDate) :
    acquire_and_draw s env = .cont { s with recreate_swapchain := true } [] := by
  rw [acquire_and_draw, hacq]

/-- `acquire_and_draw` on any other failing acquisition: the process
panics. -/
theorem acquire_and_draw_fatal {s : LoopState} {env : RedrawEnv} {msg : String}
    (hacq : env.acquireResult = .fatal msg) :
    acquire_and_draw s env = .panic msg := by
  rw [acquire_and_draw, hacq]

/-- Everything `acquire_and_draw` can put into its action list: an
acquisition, a submission, a fence wait or an error log — never a
recreation or a redraw request. -/
theorem acquire_and_draw_acts {s : LoopState} {env : RedrawEnv}
    {s' : LoopState} {acts : List HostAction}
    (h : acquire_and_draw s env = .cont s' acts) :
    ∀ g d, HostAction.recreated g d ∉ acts := by
  obtain ⟨dims, rr, ar, fr⟩ := env
  cases ar with
  | outOfDate =>
    simp only [acquire_and_draw, StepResult.cont.injEq] at h
    simp [← h.2]
  | fatal msg => simp [acquire_and_draw] at h
  | ok n =>
    cases hrcb : record_command_buffer s.framebuffers n s.dynamic_state
        s.vertex_buffer with
    | none => simp [acquire_and_draw, hrcb] at h
    | some cb =>
      cases hpf : s.previous_frame_end with
      | none => simp [acquire_and_draw, hrcb, hpf] at h
      | some prev =>
        cases fr with
        | ok =>
          simp only [acquire_and_draw, hrcb, hpf, StepResult.cont.injEq] at h
          simp [← h.2]
        | outOfDate =>
          simp only [acquire_and_draw, hrcb, hpf, StepResult.cont.injEq] at h
          simp [← h.2]
        | err e =>
          simp only [acquire_and_draw, hrcb, hpf, StepResult.cont.injEq] at h
          simp [← h.2]

/-- Any submission performed by `acquire_and_draw` is the future chain
`prev.join(acquire).then_execute(cmd).then_swapchain_present(image_num)
.then_signal_fence_and_flush()` built from the state's retained frame
handle, the acquired image of the current swapchain generation, and the
command buffer recorded on the current framebuffer set; the successful
flush additionally blocks on the new fence and retains it. -/
theorem acquire_and_draw_submitted {s : LoopState} {env : RedrawEnv}
    {s' : LoopState} {acts : List HostAction} {f : GpuFuture}
    (h : acquire_and_draw s env = .cont s' acts)
    (hf : HostAction.submitted f ∈ acts) :
    ∃ n prev cb,
      env.acquireResult = .ok n ∧
      s.previous_frame_end = some prev ∧
      record_command_buffer s.framebuffers n s.dynamic_state
        s.vertex_buffer = some cb ∧
      f = .fenceSignal prev { gen := s.swapchain.gen, imageNum := n } cb
        s.swapchain.gen n ∧
      HostAction.acquired s.swapchain.gen n ∈ acts ∧
      (env.flushResult = .ok →
        HostAction.waitedFence f ∈ acts ∧ s'.previous_frame_end = some f) := by
  obtain ⟨dims, rr, ar, fr⟩ := env
  cases ar with
  | outOfDate =>
    simp only [acquire_and_draw, StepResult.cont.injEq] at h
    rw [← h.2] at hf
    simp at hf
  | fatal msg => simp [acquire_and_draw] at h
  | ok n =>
    cases hrcb : record_command_buffer s.framebuffers n s.dynamic_state
        s.vertex_buffer with
    | none => simp [acquire_and_draw, hrcb] at h
    | some cb =>
      cases hpf : s.previous_frame_end with
      | none => simp [acquire_and_draw, hrcb, hpf] at h
      | some prev =>
        refine ⟨n, prev, cb, rfl, rfl, hrcb, ?_⟩
        cases fr with
        | ok =>
          simp only [acquire_and_draw, hrcb, hpf, StepResult.cont.injEq] at h
          obtain ⟨h1, h2⟩ := h
          rw [← h2] at hf
          simp only [List.mem_append, List.mem_cons,
            List.not_mem_nil, or_false, List.mem_singleton] at hf
          rcases hf with (hf | hf) | hf
          · cases hf
          · cases hf
            refine ⟨rfl, by rw [← h2]; simp, ?_⟩
            intro _
            refine ⟨by rw [← h2]; simp, ?_⟩
            rw [← h1]
          · cases hf
        | outOfDate =>
          simp only [acquire_and_draw, hrcb, hpf, StepResult.cont.injEq] at h
          obtain ⟨h1, h2⟩ := h
          rw [← h2] at hf
          simp only [List.mem_cons, List.not_mem_nil, or_false] at hf
          rcases hf with hf | hf
          · cases hf
          · cases hf
            refine ⟨rfl, by rw [← h2]; simp, ?_⟩
            intro hok
            cases hok
        | err e =>
          simp only [acquire_and_draw, hrcb, hpf, StepResult.cont.injEq] at h
          obtain ⟨h1, h2⟩ := h
          rw [← h2] at hf
          simp only [List.mem_append, List.mem_cons,
            List.not_mem_nil, or_false, List.mem_singleton] at hf
          rcases hf with (hf | hf) | hf
          · cases hf
          · cases hf
            refine ⟨rfl, by rw [← h2]; simp, ?_⟩
            intro hok
            cases hok
          · cases hf

/-- The exact future chain built at submission (`src/main.rs:230-235`):
`prev.join(acquire ⟨g,n⟩).then_execute(cmd).then_swapchain_present(g, n)
.then_signal_fence_and_flush()`. -/
def frame_future (prev : GpuFuture) (g n : Nat) (cb : CommandBuffer) :
    GpuFuture :=
  .fenceSignal prev { gen := g, imageNum := n } cb g n

/-- Complete characterisation of `acquire_and_draw` when acquisition
succeeds with index `n`: the retained handle and a recorded command buffer
must exist, the submitted chain is `frame_future`, and the three flush
outcomes produce exactly the three `src/main.rs:237-252` match arms. -/
theorem acquire_and_draw_ok_char {s : LoopState} {env : RedrawEnv}
    {s' : LoopState} {acts : List HostAction} {n : Nat}
    (hacq : env.acquireResult = .ok n)
    (h : acquire_and_draw s env = .cont s' acts) :
    ∃ prev cb,
      s.previous_frame_end = some prev ∧
      record_command_buffer s.framebuffers n s.dynamic_state
        s.vertex_buffer = some cb ∧
      ((env.flushResult = .ok ∧
          s' = { s with previous_frame_end := some (frame_future prev s.swapchain.gen n cb) } ∧
          acts = [ .acquired s.swapchain.gen n,
                   .submitted (frame_future prev s.swapchain.gen n cb),
                   .waitedFence (frame_future prev s.swapchain.gen n cb) ]) ∨
       (env.flushResult = .outOfDate ∧
          s' = { s with recreate_swapchain := true, previous_frame_end := some .now } ∧
          acts = [ .acquired s.swapchain.gen n,
                   .submitted (frame_future prev s.swapchain.gen n cb) ]) ∨
       (∃ e, env.flushResult = .err e ∧
          s' = { s with previous_frame_end := some .now } ∧
          acts = [ .acquired s.swapchain.gen n,
                   .submitted (frame_future prev s.swapchain.gen n cb),
                   .loggedError e ])) := by
  obtain ⟨dims, rr, ar, fr⟩ := env
  cases ar with
  | outOfDate => simp at hacq
  | fatal msg => simp at hacq
  | ok m =>
    simp only [AcquireResult.ok.injEq] at hacq
    subst hacq
    cases hrcb : record_command_buffer s.framebuffers m s.dynamic_state
        s.vertex_buffer with
    | none => simp [acquire_and_draw, hrcb] at h
    | some cb =>
      cases hpf : s.previous_frame_end with
      | none => simp [acquire_and_draw, hrcb, hpf] at h
      | some prev =>
        refine ⟨prev, cb, rfl, rfl, ?_⟩
        cases fr with
        | ok =>
          simp only [acquire_and_draw, hrcb, hpf,
            StepResult.cont.injEq] at h
          exact Or.inl ⟨rfl, h.1.symm, h.2.symm⟩
        | outOfDate =>
          simp only [acquire_and_draw, hrcb, hpf,
            StepResult.cont.injEq] at h
          exact Or.inr (Or.inl ⟨rfl, h.1.symm, h.2.symm⟩)
        | err e =>
          simp only [acquire_and_draw, hrcb, hpf,
            StepResult.cont.injEq] at h
          exact Or.inr (Or.inr ⟨e, rfl, h.1.symm, h.2.symm⟩)

/-- Any acquisition recorded by `acquire_and_draw` targets the state's
current swapchain generation and came from a successful
`acquire_next_image`. -/
theorem acquire_and_draw_acquired {s : LoopState} {env : RedrawEnv}
    {s' : LoopState} {acts : List HostAction} {g n : Nat}
    (h : acquire_and_draw s env = .cont s' acts)
    (ha : HostAction.acquired g n ∈ acts) :
    g = s.swapchain.gen ∧ env.acquireResult = .ok n := by
  rcases hexair : env.acquireResult with m | _ | msg
  · obtain ⟨prev, cb, _, _, hcase⟩ := acquire_and_draw_ok_char hexair h
    rcases hcase with ⟨_, _, hacts⟩ | ⟨_, _, hacts⟩ | ⟨e, _, _, hacts⟩ <;>
      · rw [hacts] at ha
        simp only [List.mem_cons, List.not_mem_nil, or_false] at ha
        rcases ha with ha | ha
        · cases ha
          exact ⟨rfl, rfl⟩
        · simp at ha
  · rw [acquire_and_draw_out_of_date hexair, StepResult.cont.injEq] at h
    rw [← h.2] at ha
    simp at ha
  · rw [acquire_and_draw_fatal hexair] at h
    simp at h

/-- With the stale flag clear, a redraw goes straight to the acquire path. -/
theorem redraw_step_no_recreate {s : LoopState} {env : RedrawEnv}
    (hrc : s.recreate_swapchain = false) :
    redraw_step s env = acquire_and_draw s env := by
  simp [redraw_step, hrc]

/-- Stale swapchain, recreation fails with `UnsupportedDimensions`
(`src/main.rs:182`): the closure returns immediately, state untouched. -/
theorem redraw_step_unsupported {s : LoopState} {env : RedrawEnv}
    (hrc : s.recreate_swapchain = true)
    (hrr : env.recreateResult = .unsupportedDimensions) :
    redraw_step s env = .cont s [] := by
  obtain ⟨dims, rr, ar, fr⟩ := env
  simp only [RecreateResult.ok.injEq] at hrr
  subst hrr
  simp [redraw_step, hrc]

/-- Stale swapchain, recreation fails with any other error
(`src/main.rs:183`): the process panics. -/
theorem redraw_step_recreate_fatal {s : LoopState} {env : RedrawEnv}
    {msg : String} (hrc : s.recreate_swapchain = true)
    (hrr : env.recreateResult = .fatal msg) :
    redraw_step s env = .panic msg := by
  obtain ⟨dims, rr, ar, fr⟩ := env
  simp only [RecreateResult.fatal.injEq] at hrr
  subst hrr
  simp [redraw_step, hrc]

/-- Stale swapchain, recreation succeeds: install the recreated state and
continue with the acquire path, recording the recreation (which used the
window dimensions queried at redraw time). -/
theorem redraw_step_recreate_ok {s : LoopState} {env : RedrawEnv}
    {imagesDims : List (Nat × Nat)} {s1 : LoopState}
    (hrc : s.recreate_swapchain = true)
    (hrr : env.recreateResult = .ok imagesDims)
    (hra : recreate_apply s imagesDims = some s1) :
    redraw_step s env = (acquire_and_draw s1 env).prepend
      [.recreated (s.swapchain.gen + 1) env.windowDims] := by
  obtain ⟨dims, rr, ar, fr⟩ := env
  simp only [RecreateResult.ok.injEq] at hrr
  subst hrr
  simp [redraw_step, hrc, hra]

/-- Lift of `acquire_and_draw_submitted` through the recreation phase: any
submission of a redraw iteration waits on the retained handle of the
ENTERING state joined with this frame's acquisition, runs the command
buffer recorded on the POST-iteration framebuffer set, and presents the
acquired image of the post-iteration swapchain generation. -/
theorem redraw_step_submitted {s : LoopState} {env : RedrawEnv}
    {s' : LoopState} {acts : List HostAction} {f : GpuFuture}
    (h : redraw_step s env = .cont s' acts)
    (hf : HostAction.submitted f ∈ acts) :
    ∃ n prev cb,
      env.acquireResult = .ok n ∧
      s.previous_frame_end = some prev ∧
      record_command_buffer s'.framebuffers n s'.dynamic_state
        s'.vertex_buffer = some cb ∧
      f = frame_future prev s'.swapchain.gen n cb ∧
      HostAction.acquired s'.swapchain.gen n ∈ acts ∧
      (env.flushResult = .ok →
        HostAction.waitedFence f ∈ acts ∧ s'.previous_frame_end = some f) := by
  cases hrc : s.recreate_swapchain with
  | false =>
    rw [redraw_step_no_recreate hrc] at h
    obtain ⟨hsw, _, hfb, hdy, hvb, _, _⟩ := acquire_and_draw_frame h
    obtain ⟨n, prev, cb, hacq, hpf, hrcb, hfut, hacqmem, hok⟩ :=
      acquire_and_draw_submitted h hf
    exact ⟨n, prev, cb, hacq, hpf,
      by rw [hfb, hdy, hvb]; exact hrcb,
      by rw [hsw]; exact hfut,
      by rw [hsw]; exact hacqmem, hok⟩
  | true =>
    obtain ⟨dims, rr, ar, fr⟩ := env
    cases rr with
    | unsupportedDimensions =>
      rw [redraw_step_unsupported hrc rfl, StepResult.cont.injEq] at h
      rw [← h.2] at hf
      simp at hf
    | fatal msg => rw [redraw_step_recreate_fatal hrc rfl] at h; simp at h
    | ok imagesDims =>
      cases hra : recreate_apply s imagesDims with
      | none =>
        rw [redraw_step, hrc] at h
        simp only [if_true, hra] at h
        simp at h
      | some s1 =>
        rw [redraw_step_recreate_ok hrc rfl hra] at h
        obtain ⟨a, ha, hacts⟩ := prepend_eq_cont h
        rw [hacts] at hf
        simp only [List.mem_append, List.mem_singleton, List.mem_cons,
          List.not_mem_nil, or_false] at hf
        rcases hf with hf | hf
        · cases hf
        · obtain ⟨hsw, _, hfb, hdy, hvb, _, _⟩ := acquire_and_draw_frame ha
          obtain ⟨_, _, _, _, gpfe, _, _, _⟩ := recreate_apply_eq_some hra
          obtain ⟨n, prev, cb, hacq, hpf, hrcb, hfut, hacqmem, hok⟩ :=
            acquire_and_draw_submitted ha hf
          refine ⟨n, prev, cb, hacq, by rw [← gpfe]; exact hpf,
            by rw [hfb, hdy, hvb]; exact hrcb,
            by rw [hsw]; exact hfut, ?_, ?_⟩
          · rw [hacts]
            simp only [List.mem_append]
            right
            rw [hsw]
            exact hacqmem
          · intro hfl
            obtain ⟨hw, hpfe'⟩ := hok hfl
            refine ⟨?_, hpfe'⟩
            rw [hacts]
            simp only [List.mem_append]
            right
            exact hw

/-- Any acquisition of a redraw iteration targets the post-iteration
swapchain generation (which is the generation the acquire call was issued
against, since acquisition never changes the swapchain). -/
theorem redraw_step_acquired {s : LoopState} {env : RedrawEnv}
    {s' : LoopState} {acts : List HostAction} {g n : Nat}
    (h : redraw_step s env = .cont s' acts)
    (ha : HostAction.acquired g n ∈ acts) :
    g = s'.swapchain.gen ∧ env.acquireResult = .ok n := by
  cases hrc : s.recreate_swapchain with
  | false =>
    rw [redraw_step_no_recreate hrc] at h
    obtain ⟨hsw, _, _, _, _, _, _⟩ := acquire_and_draw_frame h
    obtain ⟨hg, hacq⟩ := acquire_and_draw_acquired h ha
    exact ⟨by rw [hsw]; exact hg, hacq⟩
  | true =>
    obtain ⟨dims, rr, ar, fr⟩ := env
    cases rr with
    | unsupportedDimensions =>
      rw [redraw_step_unsupported hrc rfl, StepResult.cont.injEq] at h
      rw [← h.2] at ha
      simp at ha
    | fatal msg => rw [redraw_step_recreate_fatal hrc rfl] at h; simp at h
    | ok imagesDims =>
      cases hra : recreate_apply s imagesDims with
      | none =>
        rw [redraw_step, hrc] at h
        simp only [if_true, hra] at h
        simp at h
      | some s1 =>
        rw [redraw_step_recreate_ok hrc rfl hra] at h
        obtain ⟨a, hstep, hacts⟩ := prepend_eq_cont h
        rw [hacts] at ha
        simp only [List.mem_append, List.mem_singleton, List.mem_cons,
          List.not_mem_nil, or_false] at ha
        rcases ha with ha | ha
        · cases ha
        · obtain ⟨hsw, _, _, _, _, _, _⟩ := acquire_and_draw_frame hstep
          obtain ⟨hg, hacq⟩ := acquire_and_draw_acquired hstep ha
          exact ⟨by rw [hsw]; exact hg, hacq⟩

/-- Inversion for `record_command_buffer`: a recorded buffer is exactly
begin-render-pass / one debug draw / end-render-pass, on the indexed
framebuffer. -/
theorem record_command_buffer_eq_some {fbs : List Framebuffer} {n : Nat}
    {dyn : DynamicState} {vb : List Vertex} {cb : CommandBuffer}
    (h : record_command_buffer fbs n dyn vb = some cb) :
    ∃ fb, fbs.get? n = some fb ∧
      cb = [ .beginRenderPass fb main_clear_values,
             .draw .debug dyn [vb] [main_descriptor_set],
             .endRenderPass ] := by
  unfold record_command_buffer at h
  cases hg : fbs.get? n with
  | none => rw [hg] at h; simp at h
  | some fb =>
    rw [hg] at h
    simp only [Option.some.injEq] at h
    exact ⟨fb, rfl, h.symm⟩

/-- An action list with no recreation action has recreation count zero. -/
theorem countRecreated_eq_zero {acts : List HostAction}
    (h : ∀ g d, HostAction.recreated g d ∉ acts) : countRecreated acts = 0 := by
  induction acts with
  | nil => rfl
  | cons a t ih =>
    have ht : ∀ g d, HostAction.recreated g d ∉ t := fun g d hm =>
      h g d (List.mem_cons_of_mem _ hm)
    cases a with
    | recreated g d => exact absurd (List.mem_cons_self _ _) (h g d)
    | requestedRedraw => exact ih ht
    | acquired g n => exact ih ht
    | submitted f => exact ih ht
    | waitedFence f => exact ih ht
    | loggedError m => exact ih ht

/-- Prepending one recreation action bumps the count by one. -/
theorem countRecreated_cons_recreated (g : Nat) (d : Nat × Nat)
    (a : List HostAction) :
    countRecreated (HostAction.recreated g d :: a) = countRecreated a + 1 := by
  simp [countRecreated, List.filter]

/-- `acquire_and_draw` performs no recreation. -/
theorem acquire_and_draw_countRecreated {s : LoopState} {env : RedrawEnv}
    {s' : LoopState} {acts : List HostAction}
    (h : acquire_and_draw s env = .cont s' acts) :
    countRecreated acts = 0 :=
  countRecreated_eq_zero (acquire_and_draw_acts h)

/-- Any recreation action of a redraw iteration: it happens only with the
stale flag set and a successful `recreate_with_dimension`, targets the next
generation — which is the post-iteration generation — and uses exactly the
window dimensions queried at redraw time. -/
theorem redraw_step_recreated {s : LoopState} {env : RedrawEnv}
    {s' : LoopState} {acts : List HostAction} {g : Nat} {d : Nat × Nat}
    (h : redraw_step s env = .cont s' acts)
    (hr : HostAction.recreated g d ∈ acts) :
    g = s.swapchain.gen + 1 ∧ d = env.windowDims ∧
    s.recreate_swapchain = true ∧ s'.swapchain.gen = s.swapchain.gen + 1 ∧
    (∃ dl, env.recreateResult = .ok dl) := by
  cases hrc : s.recreate_swapchain with
  | false =>
    rw [redraw_step_no_recreate hrc] at h
    exact absurd hr (acquire_and_draw_acts h g d)
  | true =>
    obtain ⟨dims, rr, ar, fr⟩ := env
    cases rr with
    | unsupportedDimensions =>
      rw [redraw_step_unsupported hrc rfl, StepResult.cont.injEq] at h
      rw [← h.2] at hr
      simp at hr
    | fatal msg => rw [redraw_step_recreate_fatal hrc rfl] at h; simp at h
    | ok imagesDims =>
      cases hra : recreate_apply s imagesDims with
      | none =>
        rw [redraw_step, hrc] at h
        simp only [if_true, hra] at h
        simp at h
      | some s1 =>
        rw [redraw_step_recreate_ok hrc rfl hra] at h
        obtain ⟨a, hstep, hacts⟩ := prepend_eq_cont h
        obtain ⟨hsw1, _, _, _, _, _, _⟩ := acquire_and_draw_frame hstep
        obtain ⟨g1, _, _, _, _, _, _, _⟩ := recreate_apply_eq_some hra
        rw [hacts] at hr
        simp only [List.mem_append, List.mem_singleton] at hr
        rcases hr with hr | hr
        · cases hr
          exact ⟨rfl, rfl, rfl, by rw [hsw1, g1], imagesDims, rfl⟩
        · exact absurd hr (acquire_and_draw_acts hstep g d)

/-- A redraw iteration recreates the swapchain exactly once when the stale
flag is set and recreation succeeds, and never otherwise. -/
theorem redraw_step_countRecreated {s : LoopState} {env : RedrawEnv}
    {s' : LoopState} {acts : List HostAction}
    (h : redraw_step s env = .cont s' acts) :
    (s.recreate_swapchain = false → countRecreated acts = 0) ∧
    (s.recreate_swapchain = true →
      env.recreateResult = .unsupportedDimensions → countRecreated acts = 0) ∧
    (s.recreate_swapchain = true →
      ∀ dl, env.recreateResult = .ok dl → countRecreated acts = 1) := by
  refine ⟨?_, ?_, ?_⟩
  · intro hrc
    rw [redraw_step_no_recreate hrc] at h
    exact acquire_and_draw_countRecreated h
  · intro hrc hrr
    rw [redraw_step_unsupported hrc hrr, StepResult.cont.injEq] at h
    rw [← h.2]
    rfl
  · intro hrc dl hrr
    cases hra : recreate_apply s dl with
    | none =>
      obtain ⟨dims, rr, ar, fr⟩ := env
      simp only [RecreateResult.ok.injEq] at hrr
      subst hrr
      rw [redraw_step, hrc] at h
      simp only [if_true, hra] at h
      simp at h
    | some s1 =>
      rw [redraw_step_recreate_ok hrc hrr hra] at h
      obtain ⟨a, hstep, hacts⟩ := prepend_eq_cont h
      rw [hacts]
      have : countRecreated a = 0 := acquire_and_draw_countRecreated hstep
      simp only [List.singleton_append, countRecreated_cons_recreated, this]

/-- A redraw iteration never changes the vertex buffer. -/
theorem redraw_step_vb {s : LoopState} {env : RedrawEnv} {s' : LoopState}
    {acts : List HostAction} (h : redraw_step s env = .cont s' acts) :
    s'.vertex_buffer = s.vertex_buffer := by
  cases hrc : s.recreate_swapchain with
  | false =>
    rw [redraw_step_no_recreate hrc] at h
    exact (acquire_and_draw_frame h).2.2.2.2.1
  | true =>
    obtain ⟨dims, rr, ar, fr⟩ := env
    cases rr with
    | unsupportedDimensions =>
      rw [redraw_step_unsupported hrc rfl, StepResult.cont.injEq] at h
      rw [← h.1]
    | fatal msg => rw [redraw_step_recreate_fatal hrc rfl] at h; simp at h
    | ok imagesDims =>
      cases hra : recreate_apply s imagesDims with
      | none =>
        rw [redraw_step, hrc] at h
        simp only [if_true, hra] at h
        simp at h
      | some s1 =>
        rw [redraw_step_recreate_ok hrc rfl hra] at h
        obtain ⟨a, hstep, _⟩ := prepend_eq_cont h
        rw [(acquire_and_draw_frame hstep).2.2.2.2.1]
        exact (recreate_apply_eq_some hra).2.2.2.2.2.1

/-- A redraw iteration keeps the retained frame handle live when it was
live at entry. -/
theorem redraw_step_pfe {s : LoopState} {env : RedrawEnv} {s' : LoopState}
    {acts : List HostAction} (hpf : s.previous_frame_end.isSome)
    (h : redraw_step s env = .cont s' acts) :
    s'.previous_frame_end.isSome := by
  cases hrc : s.recreate_swapchain with
  | false =>
    rw [redraw_step_no_recreate hrc] at h
    rcases (acquire_and_draw_frame h).2.2.2.2.2.2 with heq | hs
    · rw [heq]; exact hpf
    · exact hs
  | true =>
    obtain ⟨dims, rr, ar, fr⟩ := env
    cases rr with
    | unsupportedDimensions =>
      rw [redraw_step_unsupported hrc rfl, StepResult.cont.injEq] at h
      rw [← h.1]
      exact hpf
    | fatal msg => rw [redraw_step_recreate_fatal hrc rfl] at h; simp at h
    | ok imagesDims =>
      cases hra : recreate_apply s imagesDims with
      | none =>
        rw [redraw_step, hrc] at h
        simp only [if_true, hra] at h
        simp at h
      | some s1 =>
        rw [redraw_step_recreate_ok hrc rfl hra] at h
        obtain ⟨a, hstep, _⟩ := prepend_eq_cont h
        rcases (acquire_and_draw_frame hstep).2.2.2.2.2.2 with heq | hs
        · rw [heq, (recreate_apply_eq_some hra).2.2.2.2.1]
          exact hpf
        · exact hs

/-! ## `handle_event` bridges and concrete fixtures -/

/-- With the retained handle dead, the very first `unwrap()` of the
closure panics, whatever the event. -/
theorem handle_event_pfe_none {s : LoopState} {ev : Ev}
    (hpf : s.previous_frame_end = none) :
    handle_event s ev = .panic "called Option..unwrap() on a None value" := by
  simp [handle_event, hpf]

/-- Dispatch of a redraw request: set `ControlFlow::Poll`, then run the
redraw iteration. -/
theorem handle_event_redraw {s : LoopState} {env : RedrawEnv}
    {prev : GpuFuture} (hprev : s.previous_frame_end = some prev) :
    handle_event s (.redrawRequested env) =
      redraw_step { s with control_flow := .poll } env := by
  simp [handle_event, hprev]

/-- Dispatch of a resize notification: set the stale flag, nothing else;
the notification's dimensions are discarded. -/
theorem handle_event_resized {s : LoopState} {w hgt : Nat}
    {prev : GpuFuture} (hprev : s.previous_frame_end = some prev) :
    handle_event s (.resized w hgt) =
      .cont { s with control_flow := .poll, recreate_swapchain := true } [] := by
  simp [handle_event, hprev]

/-- No continuing invocation of the closure ever changes the vertex
buffer. -/
theorem handle_event_vb {s : LoopState} {ev : Ev} {s' : LoopState}
    {acts : List HostAction} (h : handle_event s ev = .cont s' acts) :
    s'.vertex_buffer = s.vertex_buffer := by
  cases hpf : s.previous_frame_end with
  | none => rw [handle_event_pfe_none hpf] at h; simp at h
  | some prev =>
    cases ev with
    | redrawRequested env =>
      rw [handle_event_redraw hpf] at h
      have hv := redraw_step_vb h
      exact hv
    | eventsCleared =>
      simp only [handle_event, hpf, StepResult.cont.injEq] at h
      rw [← h.1]
    | closeRequested =>
      simp only [handle_event, hpf, StepResult.cont.injEq] at h
      rw [← h.1]
    | resized w hgt =>
      simp only [handle_event, hpf, StepResult.cont.injEq] at h
      rw [← h.1]
    | other =>
      simp only [handle_event, hpf, StepResult.cont.injEq] at h
      rw [← h.1]

/-- Every continuing invocation of the closure returns with a live
retained frame handle. -/
theorem handle_event_pfe {s : LoopState} {ev : Ev} {s' : LoopState}
    {acts : List HostAction} (h : handle_event s ev = .cont s' acts) :
    s'.previous_frame_end.isSome := by
  cases hpf : s.previous_frame_end with
  | none => rw [handle_event_pfe_none hpf] at h; simp at h
  | some prev =>
    cases ev with
    | redrawRequested env =>
      rw [handle_event_redraw hpf] at h
      have hv := redraw_step_pfe (by simp [hpf]) h
      exact hv
    | eventsCleared =>
      simp only [handle_event, hpf, StepResult.cont.injEq] at h
      rw [← h.1]
      simp [hpf]
    | closeRequested =>
      simp only [handle_event, hpf, StepResult.cont.injEq] at h
      rw [← h.1]
      simp [hpf]
    | resized w hgt =>
      simp only [handle_event, hpf, StepResult.cont.injEq] at h
      rw [← h.1]
      simp [hpf]
    | other =>
      simp only [handle_event, hpf, StepResult.cont.injEq] at h
      rw [← h.1]
      simp [hpf]

/-- The loop state right after startup with one 800×600 swapchain image. -/
def state800 : LoopState :=
  { swapchain := { gen := 0 },
    images := [{ gen := 0, width := 800, height := 600 }],
    framebuffers :=
      [{ renderPass := 0, image := { gen := 0, width := 800, height := 600 } }],
    dynamic_state :=
      { line_width := none,
        viewports := some [{ originX := 0, originY := 0, width := 800,
                             height := 600, depthMin := 0, depthMax := 1 }],
        scissors := none },
    recreate_swapchain := false,
    previous_frame_end := some .now,
    vertex_buffer := initial_vertex_data,
    control_flow := .poll }

theorem init_800 : init [(800, 600)] = some state800 := by rfl

theorem reachable_state800 : Reachable state800 :=
  .init [(800, 600)] state800 init_800

/-- `state800` after a resize notification has marked the swapchain
stale. -/
def stale800 : LoopState := { state800 with recreate_swapchain := true }

theorem reachable_stale800 : Reachable stale800 :=
  .step state800 stale800 (.resized 640 480) []
    (reachable_state800) (by rfl)

/-- Environment of a fully successful redraw. -/
def demoEnvOk : RedrawEnv :=
  { windowDims := (800, 600), recreateResult := .ok [(800, 600)],
    acquireResult := .ok 0, flushResult := .ok }

/-- Environment whose flush fails with a non-out-of-date error. -/
def demoEnvErr : RedrawEnv :=
  { windowDims := (800, 600), recreateResult := .ok [(800, 600)],
    acquireResult := .ok 0, flushResult := .err "DeviceLost" }

/-- Environment whose flush reports out-of-date. -/
def demoEnvFlushOOD : RedrawEnv :=
  { windowDims := (800, 600), recreateResult := .ok [(800, 600)],
    acquireResult := .ok 0, flushResult := .outOfDate }

/-- Environment whose recreation reports unsupported dimensions (the
window is minimised to 0×0). -/
def demoEnvUnsup : RedrawEnv :=
  { windowDims := (0, 0), recreateResult := .unsupportedDimensions,
    acquireResult := .ok 0, flushResult := .ok }

/-- Environment whose recreation fails fatally. -/
def demoEnvRecFatal : RedrawEnv :=
  { windowDims := (800, 600), recreateResult := .fatal "OomError",
    acquireResult := .ok 0, flushResult := .ok }

/-- Environment whose acquisition reports out-of-date. -/
def demoEnvAcqOOD : RedrawEnv :=
  { windowDims := (800, 600), recreateResult := .ok [(800, 600)],
    acquireResult := .outOfDate, flushResult := .ok }

/-- Environment whose acquisition fails fatally. -/
def demoEnvAcqFatal : RedrawEnv :=
  { windowDims := (800, 600), recreateResult := .ok [(800, 600)],
    acquireResult := .fatal "DeviceLost", flushResult := .ok }

/-- Environment whose recreation succeeds but returns no images. -/
def demoEnvEmptyImgs : RedrawEnv :=
  { windowDims := (800, 600), recreateResult := .ok [],
    acquireResult := .ok 0, flushResult := .ok }

/-- The command buffer recorded for `state800`'s single framebuffer. -/
def demoCmds : CommandBuffer :=
  [ .beginRenderPass
      { renderPass := 0, image := { gen := 0, width := 800, height := 600 } }
      main_clear_values,
    .draw .debug state800.dynamic_state [initial_vertex_data]
      [main_descriptor_set],
    .endRenderPass ]

/-- The future chain submitted for the first frame of `state800`. -/
def demoFuture : GpuFuture := frame_future .now 0 0 demoCmds

/-- `state800` after one fully successful frame. -/
def demoState' : LoopState := { state800 with previous_frame_end := some demoFuture }

/-- Actions of that frame. -/
def demoActs : List HostAction :=
  [ .acquired 0 0, .submitted demoFuture, .waitedFence demoFuture ]

theorem demo_step :
    handle_event state800 (.redrawRequested demoEnvOk) =
      .cont demoState' demoActs := by rfl

/-- The command buffer recorded after recreation (generation 1). -/
def demoRecCmds : CommandBuffer :=
  [ .beginRenderPass
      { renderPass := 0, image := { gen := 1, width := 800, height := 600 } }
      main_clear_values,
    .draw .debug state800.dynamic_state [initial_vertex_data]
      [main_descriptor_set],
    .endRenderPass ]

/-- The future chain submitted right after a recreation. -/
def demoRecFuture : GpuFuture := frame_future .now 1 0 demoRecCmds

/-- `stale800` after a redraw that recreated the swapchain (generation 1)
and then rendered successfully. -/
def demoRecState' : LoopState :=
  { swapchain := { gen := 1 },
    images := [{ gen := 1, width := 800, height := 600 }],
    framebuffers :=
      [{ renderPass := 0, image := { gen := 1, width := 800, height := 600 } }],
    dynamic_state := state800.dynamic_state,
    recreate_swapchain := false,
    previous_frame_end := some demoRecFuture,
    vertex_buffer := initial_vertex_data,
    control_flow := .poll }

/-- Actions of that recreating frame. -/
def demoRecActs : List HostAction :=
  [ .recreated 1 (800, 600), .acquired 1 0, .submitted demoRecFuture,
    .waitedFence demoRecFuture ]

theorem demo_rec_step :
    handle_event stale800 (.redrawRequested demoEnvOk) =
      .cont demoRecState' demoRecActs := by rfl

/-! ## Claims -/

/-- Does a command list contain a draw with the given pipeline? -/
def hasDrawWith (p : PipelineId) (cmds : List Command) : Bool :=
  cmds.any fun c => match c, p with
    | .draw .debug _ _ _, .debug => true
    | .draw .bmptxt _ _ _, .bmptxt => true
    | _, _ => false

/-- Number of draw calls in a command list. -/
def countDraws (cmds : List Command) : Nat :=
  (cmds.filter fun c => match c with
    | .draw _ _ _ _ => true
    | _ => false).length

/-- Does a step submit a command buffer containing a draw with the given
pipeline? -/
def stepSubmitsDrawWith (p : PipelineId) (r : StepResult) : Bool :=
  match r with
  | .cont _ acts => acts.any fun a => match a with
      | .submitted f => hasDrawWith p f.cmds
      | _ => false
  | .panic _ => false

/-- C1 counterexample: on a concrete fully successful frame from the
startup state, the submitted command sequence contains a draw with the
debug (red-triangle) pipeline but none with the bitmap-text
(textured-quad) pipeline — the frame does NOT draw both shapes. -/
theorem C1_counterexample :
    stepSubmitsDrawWith .debug
      (handle_event state800 (.redrawRequested demoEnvOk)) = true ∧
    stepSubmitsDrawWith .bmptxt
      (handle_event state800 (.redrawRequested demoEnvOk)) = false :=
  ⟨rfl, rfl⟩

/-- C1 (amended): every redraw iteration that reaches submission records
exactly one draw call, and it uses the debug (red-triangle) pipeline;
no draw with the bitmap-text (textured-quad) pipeline is ever recorded —
`main` never uses `bmptxtpipe`. -/
theorem C1_theorem {s : LoopState} {env : RedrawEnv} {s' : LoopState}
    {acts : List HostAction} {f : GpuFuture}
    (h : handle_event s (.redrawRequested env) = .cont s' acts)
    (hf : HostAction.submitted f ∈ acts) :
    countDraws f.cmds = 1 ∧
    hasDrawWith .debug f.cmds = true ∧
    hasDrawWith .bmptxt f.cmds = false := by
  cases hpf : s.previous_frame_end with
  | none => rw [handle_event_pfe_none hpf] at h; simp at h
  | some prev =>
    rw [handle_event_redraw hpf] at h
    obtain ⟨n, prev', cb, _, _, hrcb, hfut, _, _⟩ := redraw_step_submitted h hf
    obtain ⟨fb, hget, hcb⟩ := record_command_buffer_eq_some hrcb
    have hcmds : f.cmds =
        [ Command.beginRenderPass fb main_clear_values,
          Command.draw .debug s'.dynamic_state [s'.vertex_buffer]
            [main_descriptor_set],
          Command.endRenderPass ] := by
      rw [hfut]
      simp [frame_future, GpuFuture.cmds, hcb]
    rw [hcmds]
    exact ⟨rfl, rfl, rfl⟩

/-- C1 witness: the theorem applied to the concrete successful frame. -/
theorem C1_witness :
    countDraws demoFuture.cmds = 1 ∧
    hasDrawWith .debug demoFuture.cmds = true ∧
    hasDrawWith .bmptxt demoFuture.cmds = false :=
  @C1_theorem state800 demoEnvOk demoState' demoActs demoFuture demo_step
    (by simp [demoActs])

/-- C2 counterexample: at the startup state, a flush failing with a
generic (non-out-of-date) error leaves `recreate_swapchain = false`,
whereas the out-of-date flush sets it — the generic error is NOT handled
identically to out-of-date and does NOT transition to `SwapchainStale`. -/
theorem C2_counterexample :
    (handle_event state800 (.redrawRequested demoEnvErr)).state?.map
      LoopState.recreate_swapchain = some false ∧
    (handle_event state800 (.redrawRequested demoEnvFlushOOD)).state?.map
      LoopState.recreate_swapchain = some true :=
  ⟨rfl, rfl⟩

/-- C2 (amended): a flush failure other than out-of-date is logged, the
retained fence is replaced with the already-complete no-op fence
(`sync::now`), and the frame is never fatal — but unlike the out-of-date
case, the loop state is NOT set to `SwapchainStale`: `recreate_swapchain`
is left unchanged (`false` on this path), so no recreation is scheduled. -/
theorem C2_theorem {s : LoopState} {env : RedrawEnv} {prev : GpuFuture}
    {fb : Framebuffer} {e : String} {n : Nat}
    (hpf : s.previous_frame_end = some prev)
    (hrc : s.recreate_swapchain = false)
    (hacq : env.acquireResult = .ok n)
    (hfb : s.framebuffers.get? n = some fb)
    (hfl : env.flushResult = .err e) :
    handle_event s (.redrawRequested env) =
      .cont { s with control_flow := .poll, previous_frame_end := some .now }
        [ .acquired s.swapchain.gen n,
          .submitted (frame_future prev s.swapchain.gen n
            [ .beginRenderPass fb main_clear_values,
              .draw .debug s.dynamic_state [s.vertex_buffer]
                [main_descriptor_set],
              .endRenderPass ]),
          .loggedError e ] ∧
    ({ s with control_flow := ControlFlow.poll,
              previous_frame_end := some GpuFuture.now }
      : LoopState).recreate_swapchain = false := by
  obtain ⟨dims, rr, ar, fr⟩ := env
  simp only at hacq hfl
  subst hacq
  subst hfl
  have hrc' : ({ s with control_flow := ControlFlow.poll }
      : LoopState).recreate_swapchain = false := hrc
  have hfb' : s.framebuffers[n]? = some fb := by
    rw [← List.get?_eq_getElem?]
    exact hfb
  rw [handle_event_redraw hpf, redraw_step_no_recreate hrc']
  refine ⟨?_, hrc⟩
  simp [acquire_and_draw, record_command_buffer, hfb', hpf, frame_future]

/-- C2 witness: the theorem applied to the concrete flush failure. -/
theorem C2_witness :
    handle_event state800 (.redrawRequested demoEnvErr) =
      .cont { state800 with control_flow := .poll,
                            previous_frame_end := some .now }
        [ .acquired 0 0, .submitted (frame_future .now 0 0 demoCmds),
          .loggedError "DeviceLost" ] ∧
    ({ state800 with control_flow := ControlFlow.poll,
                     previous_frame_end := some GpuFuture.now }
      : LoopState).recreate_swapchain = false :=
  @C2_theorem state800 demoEnvErr .now
    { renderPass := 0, image := { gen := 0, width := 800, height := 600 } }
    "DeviceLost" 0 rfl rfl rfl rfl rfl

/-- C3: swapchain/framebuffer consistency.  (1) In every reachable state
the framebuffer set is exactly one framebuffer per current image and every
framebuffer's image belongs to the current swapchain generation.  (2) In
any redraw iteration, every acquire targets the post-iteration generation
whose framebuffer set is already fully rebuilt; if the iteration recreated
the swapchain, the acquire targets exactly the recreated generation (the
rebuild happens before the acquire); and every submitted render pass is
bound to a framebuffer of the current (post-iteration) generation — never
to one of a prior generation. -/
theorem C3_theorem :
    (∀ s : LoopState, Reachable s →
       s.framebuffers = framebuffersFor s.images ∧
       ∀ fb ∈ s.framebuffers, fb.image.gen = s.swapchain.gen) ∧
    (∀ (s : LoopState) (env : RedrawEnv) (s' : LoopState)
       (acts : List HostAction),
       Reachable s → handle_event s (.redrawRequested env) = .cont s' acts →
       (∀ g n, HostAction.acquired g n ∈ acts →
          g = s'.swapchain.gen ∧ ∀ fb ∈ s'.framebuffers, fb.image.gen = g) ∧
       (∀ g d g' n, HostAction.recreated g d ∈ acts →
          HostAction.acquired g' n ∈ acts → g' = g) ∧
       (∀ f, HostAction.submitted f ∈ acts → ∀ fb cv,
          Command.beginRenderPass fb cv ∈ f.cmds →
          fb.image.gen = s'.swapchain.gen)) := by
  have inv_fb : ∀ s : LoopState, LoopInv s →
      ∀ fb ∈ s.framebuffers, fb.image.gen = s.swapchain.gen := by
    intro s hInv fb hfb
    rw [hInv.fb_eq, framebuffersFor] at hfb
    simp only [List.mem_map] at hfb
    obtain ⟨i, hi, rfl⟩ := hfb
    exact hInv.gen_eq i hi
  refine ⟨?_, ?_⟩
  · intro s hs
    exact ⟨(reachable_inv hs).fb_eq, inv_fb s (reachable_inv hs)⟩
  · intro s env s' acts hs h
    have hInv' : LoopInv s' :=
      handle_event_inv (reachable_inv hs) h
    have hred : ∀ g n, HostAction.acquired g n ∈ acts →
        g = s'.swapchain.gen := by
      intro g n hg
      cases hpf : s.previous_frame_end with
      | none => rw [handle_event_pfe_none hpf] at h; simp at h
      | some prev =>
        rw [handle_event_redraw hpf] at h
        exact (redraw_step_acquired h hg).1
    refine ⟨?_, ?_, ?_⟩
    · intro g n hg
      refine ⟨hred g n hg, ?_⟩
      rw [hred g n hg]
      exact inv_fb s' hInv'
    · intro g d g' n hr hg
      cases hpf : s.previous_frame_end with
      | none => rw [handle_event_pfe_none hpf] at h; simp at h
      | some prev =>
        rw [handle_event_redraw hpf] at h
        obtain ⟨hgen, _, _, hpost, _⟩ := redraw_step_recreated h hr
        rw [(redraw_step_acquired h hg).1, hpost, hgen]
    · intro f hf fb cv hbegin
      cases hpf : s.previous_frame_end with
      | none => rw [handle_event_pfe_none hpf] at h; simp at h
      | some prev =>
        rw [handle_event_redraw hpf] at h
        obtain ⟨n, prev', cb, _, _, hrcb, hfut, _, _⟩ :=
          redraw_step_submitted h hf
        obtain ⟨fb', hget, hcb⟩ := record_command_buffer_eq_some hrcb
        have hcmds : f.cmds = cb := by rw [hfut]; rfl
        rw [hcmds, hcb] at hbegin
        simp only [List.mem_cons, List.not_mem_nil, or_false] at hbegin
        rcases hbegin with hb | hb | hb
        · cases hb
          exact inv_fb s' hInv' _ (List.get?_mem hget)
        · cases hb
        · cases hb

/-- C3 witness: at the startup state, the framebuffer set is the one built
from the startup images, and the acquire of the concrete successful frame
targeted the post-iteration generation 0. -/
theorem C3_witness :
    (state800.framebuffers = framebuffersFor state800.images) ∧
    (0 : Nat) = demoState'.swapchain.gen :=
  ⟨(C3_theorem.1 state800 reachable_state800).1,
   ((C3_theorem.2 state800 demoEnvOk demoState' demoActs reachable_state800
      demo_step).1 0 0 (by simp [demoActs])).1⟩

/-- C4: per-frame synchronisation.  Any submission of a redraw iteration
is the chain `prev.join(acquire).then_execute(cmd)
.then_swapchain_present(image_num).then_signal_fence_and_flush()` where
`prev` is exactly the completion fence retained from the previous frame
(the handle held in `previous_frame_end` at entry) and `acquire` is this
frame's image-acquisition signal — i.e. the submission waits on the join
of both before executing; it then presents exactly the acquired image
(same generation, same index) and yields the new completion fence; and on
a successful flush the host blocks on that fence (`waitedFence`) within
the same iteration, and retains it for the next one — so frame N cannot
overlap frame N-1. -/
theorem C4_theorem {s : LoopState} {env : RedrawEnv} {s' : LoopState}
    {acts : List HostAction} {f : GpuFuture}
    (h : handle_event s (.redrawRequested env) = .cont s' acts)
    (hf : HostAction.submitted f ∈ acts) :
    ∃ n prev cb,
      s.previous_frame_end = some prev ∧
      f = .fenceSignal prev { gen := s'.swapchain.gen, imageNum := n } cb
        s'.swapchain.gen n ∧
      HostAction.acquired s'.swapchain.gen n ∈ acts ∧
      (env.flushResult = .ok →
        HostAction.waitedFence f ∈ acts ∧ s'.previous_frame_end = some f) := by
  cases hpf : s.previous_frame_end with
  | none => rw [handle_event_pfe_none hpf] at h; simp at h
  | some prev =>
    rw [handle_event_redraw hpf] at h
    obtain ⟨n, prev', cb, _, hpf', hrcb, hfut, hacq, hok⟩ :=
      redraw_step_submitted h hf
    have hprev : prev' = prev := by
      have : some prev' = some prev := by rw [← hpf']; exact hpf
      exact Option.some.inj this
    exact ⟨n, prev, cb, rfl, by rw [← hprev]; exact hfut, hacq, hok⟩

/-- C4 witness: the theorem applied to the concrete successful frame. -/
theorem C4_witness :
    ∃ n prev cb,
      state800.previous_frame_end = some prev ∧
      demoFuture = .fenceSignal prev
        { gen := demoState'.swapchain.gen, imageNum := n } cb
        demoState'.swapchain.gen n ∧
      HostAction.acquired demoState'.swapchain.gen n ∈ demoActs ∧
      (demoEnvOk.flushResult = .ok →
        HostAction.waitedFence demoFuture ∈ demoActs ∧
        demoState'.previous_frame_end = some demoFuture) :=
  @C4_theorem state800 demoEnvOk demoState' demoActs demoFuture demo_step
    (by simp [demoActs])

/-- C5: when recreation is pending and `recreate_with_dimension` reports
`UnsupportedDimensions`, the frame is skipped entirely (the closure
returns with no action at all: no draw, no submission, no error surfaced)
and the state — in particular the stale flag — is unchanged, so the next
cycle retries; any other recreation failure panics, terminating the
process. -/
theorem C5_theorem {s : LoopState} {env : RedrawEnv} {prev : GpuFuture}
    (hpf : s.previous_frame_end = some prev)
    (hrc : s.recreate_swapchain = true) :
    (env.recreateResult = .unsupportedDimensions →
       handle_event s (.redrawRequested env) =
         .cont { s with control_flow := .poll } [] ∧
       ({ s with control_flow := ControlFlow.poll }
         : LoopState).recreate_swapchain = true) ∧
    (∀ msg, env.recreateResult = .fatal msg →
       handle_event s (.redrawRequested env) = .panic msg) := by
  have hrc' : ({ s with control_flow := ControlFlow.poll }
      : LoopState).recreate_swapchain = true := hrc
  refine ⟨?_, ?_⟩
  · intro hrr
    rw [handle_event_redraw hpf, redraw_step_unsupported hrc' hrr]
    exact ⟨rfl, hrc⟩
  · intro msg hrr
    rw [handle_event_redraw hpf, redraw_step_recreate_fatal hrc' hrr]

/-- C5 witness: the theorem applied to the stale state with a minimised
(0×0) window and to a fatally failing recreation. -/
theorem C5_witness :
    handle_event stale800 (.redrawRequested demoEnvUnsup) =
      .cont { stale800 with control_flow := .poll } [] ∧
    handle_event stale800 (.redrawRequested demoEnvRecFatal) =
      .panic "OomError" :=
  ⟨((@C5_theorem stale800 demoEnvUnsup .now rfl rfl).1 rfl).1,
   (@C5_theorem stale800 demoEnvRecFatal .now rfl rfl).2 "OomError" rfl⟩

/-- In a redraw iteration whose acquisition reports out-of-date, the
resulting state always carries the stale flag. -/
theorem redraw_step_acq_ood {s : LoopState} {env : RedrawEnv}
    {s' : LoopState} {acts : List HostAction}
    (hacq : env.acquireResult = .outOfDate)
    (h : redraw_step s env = .cont s' acts) :
    s'.recreate_swapchain = true := by
  cases hrc : s.recreate_swapchain with
  | false =>
    rw [redraw_step_no_recreate hrc, acquire_and_draw_out_of_date hacq,
      StepResult.cont.injEq] at h
    rw [← h.1]
  | true =>
    obtain ⟨dims, rr, ar, fr⟩ := env
    simp only at hacq
    subst hacq
    cases rr with
    | unsupportedDimensions =>
      rw [redraw_step_unsupported hrc rfl, StepResult.cont.injEq] at h
      rw [← h.1]
      exact hrc
    | fatal msg => rw [redraw_step_recreate_fatal hrc rfl] at h; simp at h
    | ok imagesDims =>
      cases hra : recreate_apply s imagesDims with
      | none =>
        rw [redraw_step, hrc] at h
        simp only [if_true, hra] at h
        simp at h
      | some s1 =>
        rw [redraw_step_recreate_ok hrc rfl hra] at h
        obtain ⟨a, hstep, _⟩ := prepend_eq_cont h
        rw [acquire_and_draw_out_of_date rfl, StepResult.cont.injEq] at hstep
        rw [← hstep.1]

/-- C6: when `acquire_next_image` reports out-of-date, the loop sets the
stale flag and aborts the frame — no command buffer is submitted; when
the flag was clear at entry the resulting state differs from the entering
one only by the stale flag (nothing recorded, nothing drawn).  Any other
acquisition failure panics, terminating the process. -/
theorem C6_theorem {s : LoopState} {env : RedrawEnv} {prev : GpuFuture}
    (hpf : s.previous_frame_end = some prev) :
    (env.acquireResult = .outOfDate →
       (∀ s' acts, handle_event s (.redrawRequested env) = .cont s' acts →
          s'.recreate_swapchain = true ∧
          (∀ f, HostAction.submitted f ∉ acts)) ∧
       (s.recreate_swapchain = false →
          handle_event s (.redrawRequested env) =
            .cont { s with control_flow := .poll,
                           recreate_swapchain := true } [])) ∧
    (∀ msg, env.acquireResult = .fatal msg → s.recreate_swapchain = false →
       handle_event s (.redrawRequested env) = .panic msg) := by
  refine ⟨fun hacq => ⟨?_, ?_⟩, ?_⟩
  · intro s' acts h
    rw [handle_event_redraw hpf] at h
    refine ⟨redraw_step_acq_ood hacq h, ?_⟩
    intro f hf
    obtain ⟨n, _, _, hacq', _, _, _, _, _⟩ := redraw_step_submitted h hf
    rw [hacq] at hacq'
    cases hacq'
  · intro hrc
    have hrc' : ({ s with control_flow := ControlFlow.poll }
        : LoopState).recreate_swapchain = false := hrc
    rw [handle_event_redraw hpf, redraw_step_no_recreate hrc',
      acquire_and_draw_out_of_date hacq]
  · intro msg hacq hrc
    have hrc' : ({ s with control_flow := ControlFlow.poll }
        : LoopState).recreate_swapchain = false := hrc
    rw [handle_event_redraw hpf, redraw_step_no_recreate hrc',
      acquire_and_draw_fatal hacq]

/-- C6 witness: the theorem applied at the startup state to a concrete
out-of-date acquisition and a concrete fatal acquisition. -/
theorem C6_witness :
    handle_event state800 (.redrawRequested demoEnvAcqOOD) =
      .cont { state800 with control_flow := .poll,
                            recreate_swapchain := true } [] ∧
    handle_event state800 (.redrawRequested demoEnvAcqFatal) =
      .panic "DeviceLost" :=
  ⟨((@C6_theorem state800 demoEnvAcqOOD .now rfl).1 rfl).2 rfl,
   (@C6_theorem state800 demoEnvAcqFatal .now rfl).2 "DeviceLost" rfl rfl⟩

/-- C7: resize handling.  (1) A resize notification unconditionally sets
the stale flag and does nothing else — its dimensions are discarded and no
recreation is performed (empty action list).  (2) Handling a further
resize notification in the already-stale state leaves the state unchanged
(idempotence), so any number ≥ 1 of notifications collapses to the same
stale state.  (3) At the next redraw: any recreation performed uses the
window dimensions queried from the environment at redraw time
(last-writer-wins) and only happens with the stale flag set; with the flag
set and a successful recreation exactly one recreation is performed; with
the flag clear none is. -/
theorem C7_theorem :
    (∀ (s : LoopState) (w hgt : Nat) (prev : GpuFuture),
       s.previous_frame_end = some prev →
       handle_event s (.resized w hgt) =
         .cont { s with control_flow := .poll,
                        recreate_swapchain := true } []) ∧
    (∀ (s : LoopState) (w' hgt' : Nat) (prev : GpuFuture),
       s.previous_frame_end = some prev →
       handle_event { s with control_flow := ControlFlow.poll,
                             recreate_swapchain := true }
           (.resized w' hgt') =
         .cont { s with control_flow := ControlFlow.poll,
                        recreate_swapchain := true } []) ∧
    (∀ (s : LoopState) (env : RedrawEnv) (s' : LoopState)
       (acts : List HostAction) (prev : GpuFuture),
       s.previous_frame_end = some prev →
       handle_event s (.redrawRequested env) = .cont s' acts →
       (∀ g d, HostAction.recreated g d ∈ acts →
          d = env.windowDims ∧ s.recreate_swapchain = true) ∧
       (s.recreate_swapchain = true → ∀ dl, env.recreateResult = .ok dl →
          countRecreated acts = 1) ∧
       (s.recreate_swapchain = false → countRecreated acts = 0)) := by
  refine ⟨?_, ?_, ?_⟩
  · intro s w hgt prev hpf
    exact handle_event_resized hpf
  · intro s w' hgt' prev hpf
    have hpf' : ({ s with control_flow := ControlFlow.poll, recreate_swapchain := true } : LoopState).previous_frame_end = some prev := hpf
    rw [handle_event_resized hpf']
  · intro s env s' acts prev hpf h
    rw [handle_event_redraw hpf] at h
    refine ⟨?_, ?_, ?_⟩
    · intro g d hr
      obtain ⟨_, hd, hrc, _, _⟩ := redraw_step_recreated h hr
      exact ⟨hd, hrc⟩
    · intro hrc dl hrr
      have hrc' : ({ s with control_flow := ControlFlow.poll }
          : LoopState).recreate_swapchain = true := hrc
      exact (redraw_step_countRecreated h).2.2 hrc' dl hrr
    · intro hrc
      have hrc' : ({ s with control_flow := ControlFlow.poll }
          : LoopState).recreate_swapchain = false := hrc
      exact (redraw_step_countRecreated h).1 hrc'

/-- C7 witness: a concrete resize marks the startup state stale without
recreating; the subsequent successful redraw performs exactly one
recreation, while a redraw without pending resize performs none. -/
theorem C7_witness :
    handle_event state800 (.resized 640 480) =
      .cont { state800 with control_flow := .poll,
                            recreate_swapchain := true } [] ∧
    countRecreated demoRecActs = 1 ∧
    countRecreated demoActs = 0 :=
  ⟨C7_theorem.1 state800 640 480 .now rfl,
   (C7_theorem.2.2 stale800 demoEnvOk demoRecState' demoRecActs .now rfl
      demo_rec_step).2.1 rfl [(800, 600)] rfl,
   (C7_theorem.2.2 state800 demoEnvOk demoState' demoActs .now rfl
      demo_step).2.2 rfl⟩

/-- C8: the fixed vertex data is exactly the three 4-component positions
(-0.5,-0.25,0,1), (0,0.5,0,1), (0.25,-0.1,0,1); every reachable state
still carries exactly this startup buffer, and no invocation of the
event-loop closure ever changes it. -/
theorem C8_theorem :
    initial_vertex_data =
      [ { position := (-0.5, -0.25, 0.0, 1.0) },
        { position := (0.0, 0.5, 0.0, 1.0) },
        { position := (0.25, -0.1, 0.0, 1.0) } ] ∧
    (∀ s : LoopState, Reachable s → s.vertex_buffer = initial_vertex_data) ∧
    (∀ (s : LoopState) (ev : Ev) (s' : LoopState) (acts : List HostAction),
       handle_event s ev = .cont s' acts →
       s'.vertex_buffer = s.vertex_buffer) := by
  refine ⟨rfl, ?_, ?_⟩
  · intro s hs
    exact (reachable_inv hs).vb_eq
  · intro s ev s' acts h
    exact handle_event_vb h

/-- C8 witness: the startup state's buffer is the startup data. -/
theorem C8_witness : state800.vertex_buffer = initial_vertex_data :=
  C8_theorem.2.1 state800 reachable_state800

/-- C9: `window_size_dependent_setup` is a partial function of the image
list.  On the empty list it is undefined (it indexes element 0 and
panics, modelled as `none`).  On any nonempty list it succeeds with one
framebuffer per image, in order, and a viewport at origin (0,0) whose
dimensions are the first image's pixel dimensions; in particular success
forces a nonempty image list.  The loop itself does not guard the call:
a recreation that yields no images panics the process. -/
theorem C9_theorem :
    (∀ rp : Nat, window_size_dependent_setup [] rp = none) ∧
    (∀ (img0 : Image) (rest : List Image) (rp : Nat),
       window_size_dependent_setup (img0 :: rest) rp =
         some ({ originX := 0, originY := 0, width := (img0.width : F32), height := (img0.height : F32), depthMin := 0, depthMax := 1 },
               (img0 :: rest).map
                 (fun image => { renderPass := rp, image := image }))) ∧
    (∀ (images : List Image) (rp : Nat) (vp : Viewport)
       (fbs : List Framebuffer),
       window_size_dependent_setup images rp = some (vp, fbs) →
       fbs.length = images.length ∧ images ≠ []) ∧
    (∀ (s : LoopState) (env : RedrawEnv) (prev : GpuFuture),
       s.previous_frame_end = some prev → s.recreate_swapchain = true →
       env.recreateResult = .ok [] →
       handle_event s (.redrawRequested env) =
         .panic "index out of bounds") := by
  refine ⟨fun rp => rfl, fun img0 rest rp => rfl, ?_, ?_⟩
  · intro images rp vp fbs h
    obtain ⟨hfbs, img0, rest, hcons, _⟩ := setup_eq_some h
    constructor
    · rw [hfbs, List.length_map]
    · rw [hcons]
      simp
  · intro s env prev hpf hrc hrr
    obtain ⟨dims, rr, ar, fr⟩ := env
    simp only at hrr
    subst hrr
    have hrc' : ({ s with control_flow := ControlFlow.poll }
        : LoopState).recreate_swapchain = true := hrc
    rw [handle_event_redraw hpf]
    simp [redraw_step, hrc, hrc', recreate_apply, window_size_dependent_setup]

/-- C9 witness: the builder is undefined on the empty image list, and the
loop panics when a successful recreation yields no images. -/
theorem C9_witness :
    window_size_dependent_setup [] 0 = none ∧
    handle_event stale800 (.redrawRequested demoEnvEmptyImgs) =
      .panic "index out of bounds" :=
  ⟨C9_theorem.1 0,
   C9_theorem.2.2.2 stale800 demoEnvEmptyImgs .now rfl rfl rfl⟩

/-- C10: the retained previous-frame handle is `Some` in every reachable
state (so the `unwrap()` at the top of the handler and the one at
submission — both of which read this very field — never fail), and every
continuing invocation of the closure stores a replacement before
returning; the only way the top unwrap could panic is a `None` handle,
which reachability excludes. -/
theorem C10_theorem :
    (∀ s : LoopState, Reachable s → s.previous_frame_end.isSome) ∧
    (∀ (s : LoopState) (ev : Ev) (s' : LoopState) (acts : List HostAction),
       handle_event s ev = .cont s' acts →
       s'.previous_frame_end.isSome) ∧
    (∀ (s : LoopState) (ev : Ev), s.previous_frame_end = none →
       handle_event s ev =
         .panic "called Option..unwrap() on a None value") :=
  ⟨fun _ hs => (reachable_inv hs).pfe,
   fun _ _ _ _ h => handle_event_pfe h,
   fun _ _ hpf => handle_event_pfe_none hpf⟩

/-- C10 witness: the handle is live at the startup state. -/
theorem C10_witness : state800.previous_frame_end.isSome = true :=
  C10_theorem.1 state800 reachable_state800
